import Mathlib

/-!
Verification development for the Windows AI agent repository: a shallow
embedding of the intent-recognition engine (`src/core/intent_recognition.py`)
and the code-execution sandbox (`src/utils/code_executor.py`), with theorems
settling the behavioural claims about them.

Conventions of the embedding:
* Python values flowing through parameter extraction are modelled by `PyValue`.
* Python's regular-expression engine is external to the sources under study;
  a compiled pattern's behaviour on the input text is therefore supplied as an
  oracle (`Option RegexMatch` per pattern, or a `String → String → Bool`
  match predicate for validation patterns).
* Numeric values are modelled by `Int` and `ℚ`; the confidence arithmetic of
  the source (0.7, 0.3, 0.1, min with 1.0) is exact in `ℚ`.
* Fallible Python code is modelled with `Except String`; an `Except.error`
  is an uncaught Python exception.
-/

set_option autoImplicit false

namespace WindowsAIAgent

/-- A single-quote character as a string, used to build the error messages of
the source verbatim (for example `Required parameter 'x' is missing`). -/
def sq : String := String.singleton (Char.ofNat 39)

/-- Python whitespace for `str.strip()`: space, tab, newline, vertical tab,
form feed, carriage return. -/
def isPySpace (c : Char) : Bool :=
  c.toNat = 32 ∨ (9 ≤ c.toNat ∧ c.toNat ≤ 13)

/-- Python `str.strip()` (defined structurally on the character list so that
concrete witnesses reduce in the kernel). -/
def pyStrip (s : String) : String :=
  String.mk (((s.data.dropWhile isPySpace).reverse.dropWhile isPySpace).reverse)

/-- ASCII lowercasing of one character. -/
def asciiLower (c : Char) : Char :=
  if 65 ≤ c.toNat ∧ c.toNat ≤ 90 then Char.ofNat (c.toNat + 32) else c

/-- Python `str.lower()` on the ASCII fragment the catalogue exercises. -/
def pyLower (s : String) : String :=
  String.mk (s.data.map asciiLower)

/-- Python `min(a, b)` on exact rationals (equal to Mathlib `min`,
`pyMin_eq_min`). -/
def pyMin (a b : ℚ) : ℚ :=
  if a ≤ b then a else b

/-- Python `name.startswith(('__', '_'))`, which is the same test as
`name.startswith('_')`: a non-empty string whose first character is an
underscore. -/
def startsWithUnderscore (s : String) : Bool :=
  match s.data with
  | c :: _ => c = '_'
  | [] => false

/-- `"; ".join(errors)`-style joining: empty string on `[]`, the sole element
on a singleton, and elements interleaved with `sep` otherwise. -/
def joinSep (sep : String) : List String → String
  | [] => ""
  | [a] => a
  | a :: b :: rest => a ++ sep ++ joinSep sep (b :: rest)

/-- Value of a nat written in decimal by a list of digit characters. -/
def digitsToNat (l : List Char) : Nat :=
  l.foldl (fun n c => 10 * n + (c.toNat - 48)) 0

/-- Model of Python `int(s)` on a string: strip surrounding whitespace, allow
one optional sign, then require a non-empty run of (ASCII) decimal digits.
Returns `none` where Python raises `ValueError`. -/
def pyIntOfString (s : String) : Option Int :=
  let t := (pyStrip s).data
  match t with
  | '+' :: rest => if rest ≠ [] ∧ rest.all Char.isDigit then some (digitsToNat rest) else none
  | '-' :: rest => if rest ≠ [] ∧ rest.all Char.isDigit then some (-(digitsToNat rest : Int)) else none
  | rest => if rest ≠ [] ∧ rest.all Char.isDigit then some (digitsToNat rest) else none

/-- Exponent suffix of a Python float literal: empty, or `e`/`E`, an optional
sign and a non-empty digit run.  Returns the scaled mantissa, `none` where
Python raises `ValueError`. -/
def pyFloatExp (m : ℚ) : List Char → Option ℚ
  | [] => some m
  | c :: rest =>
    if c = 'e' ∨ c = 'E' then
      match rest with
      | '+' :: ds => if ds ≠ [] ∧ ds.all Char.isDigit then some (m * 10 ^ digitsToNat ds) else none
      | '-' :: ds => if ds ≠ [] ∧ ds.all Char.isDigit then some (m / 10 ^ digitsToNat ds) else none
      | ds => if ds ≠ [] ∧ ds.all Char.isDigit then some (m * 10 ^ digitsToNat ds) else none
    else none

/-- Unsigned part of a Python float literal: digits, optionally a point and
more digits, optionally an exponent. -/
def pyFloatBody (l : List Char) : Option ℚ :=
  let ip := l.takeWhile Char.isDigit
  let r1 := l.dropWhile Char.isDigit
  match r1 with
  | '.' :: r2 =>
    let fp := r2.takeWhile Char.isDigit
    let r3 := r2.dropWhile Char.isDigit
    if ip = [] ∧ fp = [] then none
    else pyFloatExp ((digitsToNat ip : ℚ) + (digitsToNat fp : ℚ) / 10 ^ fp.length) r3
  | _ => if ip = [] then none else pyFloatExp (digitsToNat ip : ℚ) r1

/-- Model of Python `float(s)` on a string: strip whitespace, optional sign,
then a decimal literal with optional fraction and exponent (the `inf`/`nan`
spellings are outside the fragment exercised here).  Returns `none` where
Python raises `ValueError`. -/
def pyFloatOfString (s : String) : Option ℚ :=
  match (pyStrip s).data with
  | '+' :: rest => pyFloatBody rest
  | '-' :: rest => (pyFloatBody rest).map Neg.neg
  | rest => pyFloatBody rest

/-- Python `int()` truncation of a float toward zero. -/
def pyTrunc (q : ℚ) : Int :=
  Int.tdiv q.num (q.den : Int)

/-- Values handled by `_convert_parameter_type` and the parameter maps:
strings, ints, floats, bools, the `{"x": .., "y": ..}` coordinate dict,
`pathlib.Path` objects and `None`. -/
inductive PyValue where
  | str (s : String)
  | int (n : Int)
  | float (q : ℚ)
  | bool (b : Bool)
  | coords (x y : Int)
  | path (p : String)
  | none
deriving DecidableEq

/-- Python type name of a value, as it appears in `AttributeError` texts. -/
def pyTypeName : PyValue → String
  | .str _ => "str"
  | .int _ => "int"
  | .float _ => "float"
  | .bool _ => "bool"
  | .coords _ _ => "dict"
  | .path _ => "WindowsPath"
  | .none => "NoneType"

/-- Python truthiness of a `PyValue` (`if value:`). A coordinate dict always
has two entries, hence is truthy; `Path` objects are truthy. -/
def pyTruthy : PyValue → Bool
  | .str s => s ≠ ""
  | .int n => n ≠ 0
  | .float q => q ≠ 0
  | .bool b => b
  | .coords _ _ => true
  | .path _ => true
  | .none => false

/-- Python `str(value)`.  The renderings of dicts and paths are used only as
input to the regular-expression oracle of `_validate_parameters`, so their
exact spelling is not load-bearing; strings pass through unchanged as in
`str()`. -/
def pyStr : PyValue → String
  | .str s => s
  | .int n => toString n
  | .float q => toString q
  | .bool b => if b then "True" else "False"
  | .coords x y => "dict(x=" ++ toString x ++ ", y=" ++ toString y ++ ")"
  | .path p => p
  | .none => "None"

/-- Maximal runs of decimal digits in a character list, the model of
`re.findall(r'\d+', value)`. Accumulator holds the current run reversed. -/
def digitRunsAux : List Char → List Char → List (List Char)
  | [], acc => if acc = [] then [] else [acc.reverse]
  | c :: rest, acc =>
    if c.isDigit then digitRunsAux rest (c :: acc)
    else if acc = [] then digitRunsAux rest [] else acc.reverse :: digitRunsAux rest []

/-- `re.findall(r'\d+', s)` as numbers. -/
def digitRuns (s : String) : List Nat :=
  (digitRunsAux s.toList []).map digitsToNat

/-- Python `int(value)` applied to an arbitrary value, with the `ValueError`
and `TypeError` outcomes already folded into the caller's `except` clause of
`_convert_parameter_type`: on those two exceptions the raw value is returned.
`int` of a string parses it, of an int is the identity, of a float truncates
toward zero, of a bool gives 0/1; of a dict or a `Path` it raises `TypeError`
(so the raw value comes back). -/
def pyIntCast (v : PyValue) : PyValue :=
  match v with
  | .str s => match pyIntOfString s with
    | some n => .int n
    | Option.none => v
  | .int n => .int n
  | .float q => .int (pyTrunc q)
  | .bool b => .int (if b then 1 else 0)
  | _ => v

/-- Python `float(value)` with `ValueError`/`TypeError` folded into the
caller's `except` clause, exactly as `pyIntCast`. -/
def pyFloatCast (v : PyValue) : PyValue :=
  match v with
  | .str s => match pyFloatOfString s with
    | some q => .float q
    | Option.none => v
  | .int n => .float (n : ℚ)
  | .float q => .float q
  | .bool b => .float (if b then 1 else 0)
  | _ => v

/-- Lowercased strings Python's bool conversion branch accepts as true. -/
def boolTrueWords : List String := ["true", "yes", "1", "on", "enable"]

/-- Shallow embedding of `IntentRecognizer._convert_parameter_type`.
`None` passes through; kind `int`/`float` parse with graceful fallback to the
raw value (the source catches `ValueError`/`TypeError`); kind `bool` calls
`value.lower()`, which raises an uncaught `AttributeError` on any non-string
value; kind `coordinates` scans for digit runs and yields the coordinate dict,
`None` when fewer than two are found, or — on a non-string, where
`re.findall` raises `TypeError`, which is caught — the raw value; kind `path`
wraps strings and paths, returning the raw value where `Path(...)` raises
`TypeError`; any other kind string passes the value through. -/
def convert_parameter_type (value : PyValue) (param_type : String) : Except String PyValue :=
  if value = PyValue.none then .ok PyValue.none
  else if param_type = "int" then .ok (pyIntCast value)
  else if param_type = "float" then .ok (pyFloatCast value)
  else if param_type = "bool" then
    match value with
    | .str s => .ok (.bool (boolTrueWords.contains (pyLower s)))
    | v => .error ("AttributeError: " ++ sq ++ pyTypeName v ++ sq ++
        " object has no attribute " ++ sq ++ "lower" ++ sq)
  else if param_type = "coordinates" then
    match value with
    | .str s => match digitRuns s with
      | a :: b :: _ => .ok (.coords (a : Int) (b : Int))
      | _ => .ok PyValue.none
    | v => .ok v
  else if param_type = "path" then
    match value with
    | .str s => .ok (.path s)
    | .path p => .ok (.path p)
    | v => .ok v
  else .ok value

/-- The automation collaborator handed to every handler
(`WindowsAutomation`): an external capability provider, opaque to the intent
engine, so modelled as a structure with no observable fields. -/
structure WindowsAutomation where
  mk ::

/-- The uniform result dict of `execute_intent` and of handlers.  Handlers
return further keys (`message`, `data`, ...) that no claim observes; the
embedding keeps the `success` and `error` entries. -/
structure ExecResult where
  success : Bool
  error : Option String

/-- A handler bound to an intent: takes the automation collaborator and the
parameter dict, returns a result dict or raises (`Except.error` is the raised
exception's message).  Sync and async handlers are both awaited to exactly
this shape by `execute_intent`, so the distinction is collapsed. -/
def HandlerFn : Type :=
  WindowsAutomation → List (String × PyValue) → Except String ExecResult

/-- `IntentParameter` of the source (the `description` field, unused by the
engine, is omitted).  `default = PyValue.none` is Python's `default=None`. -/
structure IntentParameter where
  name : String
  ptype : String
  required : Bool
  default : PyValue
  validation_pattern : Option String

/-- `Intent` of the source: the parameter dict is an ordered association list
keyed as in `intent.parameters.items()` (by convention the key equals the
spec's `name` field, but the embedding keeps both, as the source reads the
key in extraction/validation and the `name` field in confidence scoring).
The category, description, examples and confirmation flag play no part in
the claims and are omitted. -/
structure Intent where
  name : String
  parameters : List (String × IntentParameter)
  handler : Option HandlerFn

/-- One successful `re.Pattern.search` result: the named groups the pattern
defines (`groupdict()`), each with its captured text or `None`; the matched
substring `group(0)`; and the subject text `string`. -/
structure RegexMatch where
  groups : List (String × Option String)
  group0 : String
  string : String

/-- `ParsedIntent` of the source. -/
structure ParsedIntent where
  intent : Intent
  extracted_params : List (String × PyValue)
  confidence : ℚ
  raw_text : String

/-- Python dict assignment `d[k] = v`: overwrite in place when the key is
present, append otherwise. -/
def dictInsert {α : Type} (d : List (String × α)) (k : String) (v : α) : List (String × α) :=
  if (d.lookup k).isSome then
    d.map (fun kv => if kv.1 = k then (k, v) else kv)
  else d ++ [(k, v)]

/-- Python `d.get(k)`: the stored value, or `None` when the key is absent. -/
def pyGet (d : List (String × PyValue)) (k : String) : PyValue :=
  match d.lookup k with
  | some v => v
  | Option.none => PyValue.none

/-- A regex capture as the Python value `_convert_parameter_type` receives:
the captured string, or `None` when the group did not participate. -/
def ofCapture : Option String → PyValue
  | some s => .str s
  | Option.none => PyValue.none

/-- `_convert_parameter_type` applied to a regex capture.  On a string or
`None` the conversion never raises (`convert_capture_isOk`), so the
`.error` arm is unreachable; it returns the unconverted value, mirroring the
dead `except (IndexError, ValueError)` branch of `_extract_parameters`
(`match.group` on a name from `groupdict()` cannot raise `IndexError`, and
`_convert_parameter_type` catches `ValueError` itself). -/
def convertCaptured (captured : Option String) (param_type : String) : PyValue :=
  match convert_parameter_type (ofCapture captured) param_type with
  | .ok w => w
  | .error _ => ofCapture captured

/-- Shallow embedding of `IntentRecognizer._extract_parameters`: for each
declared parameter, if its key is a named group of the pattern, store the
type-converted capture (which is `None` when the group did not capture);
otherwise, for an optional parameter with a non-`None` default, store the
default; otherwise leave the parameter out. -/
def extract_parameters (intent : Intent) (m : RegexMatch) : List (String × PyValue) :=
  intent.parameters.foldl
    (fun extracted kp =>
      match m.groups.lookup kp.1 with
      | some captured => dictInsert extracted kp.1 (convertCaptured captured kp.2.ptype)
      | Option.none =>
        if kp.2.required = false ∧ kp.2.default ≠ PyValue.none then
          dictInsert extracted kp.1 kp.2.default
        else extracted)
    []

/-- Does the extracted-parameter dict hold a non-`None` value for `k`?
(`param.name in extracted_params and extracted_params[param.name] is not
None`). -/
def hasNonNull (d : List (String × PyValue)) (k : String) : Bool :=
  match d.lookup k with
  | some v => v ≠ PyValue.none
  | Option.none => false

/-- Shallow embedding of `IntentRecognizer._calculate_confidence`: base 0.7;
plus `0.3 × K/N` over the required parameters when there are any; plus 0.1
when the matched substring, trimmed and lowercased, equals the whole subject
text trimmed and lowercased; capped at 1.0. -/
def calculate_confidence (intent : Intent) (m : RegexMatch)
    (extracted_params : List (String × PyValue)) : ℚ :=
  let base1 : ℚ := 7/10
  let required_params := (intent.parameters.map Prod.snd).filter (fun p => p.required)
  let base2 : ℚ :=
    if required_params.length ≠ 0 then
      let extracted_required :=
        (required_params.filter (fun p => hasNonNull extracted_params p.name)).length
      base1 + ((extracted_required : ℚ) / (required_params.length : ℚ)) * (3/10)
    else base1
  let base3 : ℚ :=
    if pyLower (pyStrip m.group0) = pyLower (pyStrip m.string) then base2 + 1/10
    else base2
  pyMin base3 1

/-- The closed-form confidence of the specification: `min(1.00, 0.70 +
0.30×(K/N) + E)`, the `K/N` term omitted when `N = 0` and `E = 0.10` exactly
on a whole-text match. -/
def confidence_spec (N K : ℕ) (exact : Prop) [Decidable exact] : ℚ :=
  min 1 ((7/10 : ℚ) + (if N = 0 then 0 else (3/10 : ℚ) * ((K : ℚ) / (N : ℚ)))
    + (if exact then (1/10 : ℚ) else 0))

/-- The `ParsedIntent` the scan of `parse_intent` builds from one successful
pattern match: extract the parameters, then score the confidence. -/
def mkCandidate (text : String) (intent : Intent) (m : RegexMatch) : ParsedIntent :=
  let extracted_params := extract_parameters intent m
  ParsedIntent.mk intent extracted_params
    (calculate_confidence intent m extracted_params) text

/-- The running-best update of the scan: a candidate replaces the best seen
so far exactly when its confidence is strictly greater. -/
def bestStep (best : Option ParsedIntent × ℚ) (c : ParsedIntent) :
    Option ParsedIntent × ℚ :=
  if c.confidence > best.2 then (some c, c.confidence) else best

/-- One inner-loop iteration of `parse_intent`: a pattern that did not match
leaves the best unchanged, a match builds a candidate and applies
`bestStep`. -/
def scanStep (text : String) (intent : Intent) (best : Option ParsedIntent × ℚ)
    (om : Option RegexMatch) : Option ParsedIntent × ℚ :=
  match om with
  | Option.none => best
  | some m => bestStep best (mkCandidate text intent m)

/-- Shallow embedding of `IntentRecognizer.parse_intent`.  The compiled
patterns are external regex engine state, so the catalogue is supplied with
each pattern already replaced by its `search` outcome on the input text
(`none` = no match).  The scan keeps a running best, starting from
`(None, 0.0)`, and replaces it only on strictly greater confidence. -/
def parse_intent (text : String)
    (catalogue : List (Intent × List (Option RegexMatch))) : Option ParsedIntent :=
  (catalogue.foldl
    (fun best im => im.2.foldl (scanStep text im.1) best)
    ((Option.none : Option ParsedIntent), (0 : ℚ))).1

/-- The `ParsedIntent` candidates the scan of `parse_intent` encounters, in
scan order: one per successful pattern match, over all templates. -/
def candidates (text : String)
    (catalogue : List (Intent × List (Option RegexMatch))) : List ParsedIntent :=
  (catalogue.map (fun im =>
    im.2.filterMap (fun om => om.map (mkCandidate text im.1)))).flatten

/-- First strict maximum of a candidate list above a threshold: the element a
strict-`>` running-best scan starting at `v` ends on. -/
def selBest (v : ℚ) : List ParsedIntent → Option ParsedIntent
  | [] => Option.none
  | c :: cs =>
    if c.confidence > v then
      match selBest c.confidence cs with
      | some r => some r
      | Option.none => some c
    else selBest v cs

/-- The errors one parameter contributes in the loop of
`IntentRecognizer._validate_parameters`: required-and-missing short-circuits
(`continue`); otherwise a truthy value is checked against a truthy
`validation_pattern` through the regex oracle `re_match`. -/
def param_errors (re_match : String → String → Bool) (p : ParsedIntent)
    (kp : String × IntentParameter) : List String :=
  let value := pyGet p.extracted_params kp.1
  if kp.2.required = true ∧ value = PyValue.none then
    ["Required parameter " ++ sq ++ kp.1 ++ sq ++ " is missing"]
  else if pyTruthy value = true ∧ kp.2.validation_pattern.getD "" ≠ "" then
    if re_match (kp.2.validation_pattern.getD "") (pyStr value) = false then
      ["Parameter " ++ sq ++ kp.1 ++ sq ++ " doesn" ++ sq ++ "t match required pattern"]
    else []
  else []

/-- All errors `_validate_parameters` collects, in parameter order. -/
def validation_errors (re_match : String → String → Bool) (p : ParsedIntent) : List String :=
  (p.intent.parameters.map (param_errors re_match p)).flatten

/-- The `{"valid": .., "error": ..}` dict `_validate_parameters` returns. -/
structure ParamValidationResult where
  valid : Bool
  error : Option String

/-- Shallow embedding of `IntentRecognizer._validate_parameters`. -/
def validate_parameters (re_match : String → String → Bool)
    (p : ParsedIntent) : ParamValidationResult :=
  let errors := validation_errors re_match p
  ⟨errors.length = 0, if errors ≠ [] then some (joinSep "; " errors) else Option.none⟩

/-- `extracted_params` with `"_raw_message"` added, as `execute_intent`
passes to the handler. -/
def paramsWithContext (p : ParsedIntent) : List (String × PyValue) :=
  dictInsert p.extracted_params "_raw_message" (.str p.raw_text)

/-- Shallow embedding of `IntentRecognizer.execute_intent`: no handler fails
immediately; a parameter-validation failure fails with the joined errors; the
handler is then invoked (awaited if async) and any exception it raises is
caught and normalised to `success=False` with the exception's message. -/
def execute_intent (re_match : String → String → Bool)
    (automation : WindowsAutomation) (p : ParsedIntent) : ExecResult :=
  match p.intent.handler with
  | Option.none =>
    ⟨false, some ("No handler registered for intent: " ++ p.intent.name)⟩
  | some handler =>
    let validation_result := validate_parameters re_match p
    if validation_result.valid = false then
      ⟨false, some ("Parameter validation failed: " ++ validation_result.error.getD "")⟩
    else
      match handler automation (paramsWithContext p) with
      | .ok result => result
      | .error e => ⟨false, some e⟩

/-! ### Code-execution sandbox (`src/utils/code_executor.py`) -/

/-- The nodes of a parsed Python module, as seen by the `ast.NodeVisitor`
walk of `CodeValidator`: every `visit_*` method inspects only the node at
hand and recurses with `generic_visit`, so the walk is fully described by
the sequence of visited nodes in walk order.  `imp names` is an import
statement `import a, b` (full dotted names), `impFrom mod` a
`from mod import ...`, `callNamed f` a call whose function position is the
bare name `f`, `attr a` an attribute access `<expr>.a`, and `other` any
node the validator does not inspect. -/
inductive PyNodeKind where
  | imp (names : List String)
  | impFrom (mod : Option String)
  | callNamed (fname : String)
  | attr (a : String)
  | other
deriving DecidableEq

/-- `CodeValidator.prohibited_functions`. -/
def prohibited_functions : List String :=
  ["exec", "eval", "compile", "open", "__import__",
   "getattr", "setattr", "delattr", "hasattr",
   "globals", "locals", "vars", "dir"]

/-- `CodeValidator.prohibited_modules`. -/
def prohibited_modules : List String :=
  ["os", "sys", "subprocess", "socket", "urllib",
   "requests", "shutil", "pathlib", "tempfile"]

/-- `alias.name.split('.')[0]`: the root module of a dotted name. -/
def headModule (s : String) : String :=
  String.mk (s.data.takeWhile (fun c => c ≠ Char.ofNat 46))

/-- The violation strings one visited node contributes to
`CodeValidator.violations`. -/
def nodeViolations : PyNodeKind → List String
  | .imp names =>
    names.filterMap (fun n =>
      if prohibited_modules.contains (headModule n) then
        some ("Prohibited import: " ++ headModule n)
      else Option.none)
  | .impFrom (some m) =>
    if prohibited_modules.contains (headModule m) then
      ["Prohibited import from: " ++ headModule m]
    else []
  | .impFrom Option.none => []
  | .callNamed f =>
    if prohibited_functions.contains f then ["Prohibited function: " ++ f] else []
  | .attr a =>
    if startsWithUnderscore a then ["Prohibited attribute access: " ++ a] else []
  | .other => []

/-- `CodeValidator.violations` after `visit` has walked the whole tree. -/
def violations (ast : List PyNodeKind) : List String :=
  (ast.map nodeViolations).flatten

/-- The `{"valid": .., "error": ..}` dict of
`SafeExecutionEnvironment._validate_code`. -/
structure ValidationResult where
  valid : Bool
  error : Option String
deriving DecidableEq

/-- Shallow embedding of `SafeExecutionEnvironment._validate_code`, reached
with a successfully parsed tree `ast` (a `SyntaxError` from `ast.parse` is
reported before this point and is outside these claims).  `restrictedErrors`
is the error list the external `RestrictedPython.compile_restricted` reports,
`Option.none` when `RestrictedPython` is not installed (the source also
repeats the identical compile-and-check a second time, which cannot change
the outcome and is collapsed here).  The `CodeValidator` walk is performed
and its violations computed — but, exactly as in the source, the collected
`violations` list is never consulted afterwards. -/
def validate_code (ast : List PyNodeKind)
    (restrictedErrors : Option (List String)) : ValidationResult :=
  let _violations := violations ast
  match restrictedErrors with
  | some errs =>
    if errs ≠ [] then
      ⟨false, some ("Compilation errors: " ++ joinSep "; " errs)⟩
    else ⟨true, Option.none⟩
  | Option.none => ⟨true, Option.none⟩

/-- A value sitting in the execution namespace, as observed by
`_extract_user_variables`: whether it is a module or a function value,
whether `json.dumps` accepts it, and its `str()` rendering. -/
structure PyObj where
  isModule : Bool
  isFunction : Bool
  jsonSerializable : Bool
  strRepr : String
deriving DecidableEq

/-- An entry of the extracted `variables` map: the value kept as-is, or
replaced by its string representation. -/
inductive StoredValue where
  | asIs (o : PyObj)
  | strOf (s : String)
deriving DecidableEq

/-- Shallow embedding of
`SafeExecutionEnvironment._extract_user_variables`: scan the final namespace
`ns` in order and keep every entry whose name does not start with `_`
(`startswith(('__', '_'))` is the same test), is not among `safe_names` (the
keys of the original `self.safe_namespace`), and whose value is neither a
module nor a function; keep the value itself when JSON-serializable, else
its `str()` form. -/
def extract_user_variables (safe_names : List String)
    (ns : List (String × PyObj)) : List (String × StoredValue) :=
  ns.filterMap (fun nv =>
    if startsWithUnderscore nv.1 = false ∧ safe_names.contains nv.1 = false ∧
        nv.2.isModule = false ∧ nv.2.isFunction = false then
      some (nv.1, if nv.2.jsonSerializable then .asIs nv.2 else .strOf nv.2.strRepr)
    else Option.none)

/-- The result dict of `SafeExecutionEnvironment.execute_code` as
`_execute_persistent` consumes it; the `variables` entry is the field
`vars` (`variables` is reserved in Lean), and the `output`,
`execution_time` and `return_value` entries play no part in the
session-state claim. -/
structure ExecCodeResult where
  success : Bool
  error : Option String
  vars : List (String × StoredValue)

/-- Python `d.update(new)` on string-keyed dicts. -/
def dictUpdate (d new : List (String × StoredValue)) : List (String × StoredValue) :=
  new.foldl (fun acc kv => dictInsert acc kv.1 kv.2) d

/-- The value `_execute_persistent` returns (the result dict, to which a
`session_variables` copy is added on success) paired with the executor's
`session_variables` state after the call.  `exec_code` stands for
`self.environment.execute_code`, which reads the passed variable dict but
never mutates the executor's state, so it is modelled as a pure function of
the code string and the seed variables. -/
def execute_persistent
    (exec_code : String → List (String × StoredValue) → ExecCodeResult)
    (session_variables : List (String × StoredValue)) (code : String) :
    (ExecCodeResult × Option (List (String × StoredValue))) ×
      List (String × StoredValue) :=
  let result := exec_code code session_variables
  if result.success then
    let updated := dictUpdate session_variables result.vars
    ((result, some updated), updated)
  else ((result, Option.none), session_variables)

/-! ### Concrete fixtures used by witnesses -/

/-- Fixture for the scan claims: an intent with no parameters, as
`system_information` behaves on inputs matching its parameterless pattern
`system\s+status` (the handler, an OS-probing action, plays no part in
parsing and is left unbound here). -/
def status_intent : Intent := ⟨"system_status", [], Option.none⟩

/-- The `re.search` outcome of the pattern `system\s+status` on the input
`"system status"`: no named groups, and the matched substring is the whole
text. -/
def status_match : RegexMatch := ⟨[], "system status", "system status"⟩

/-- A one-intent catalogue with the single pattern above already matched. -/
def status_catalogue : List (Intent × List (Option RegexMatch)) :=
  [(status_intent, [some status_match])]

/-- The parse result the scan produces on that catalogue:
no required parameters and an exact whole-text match give confidence
`0.7 + 0.1 = 0.8`. -/
def status_parsed : ParsedIntent := ⟨status_intent, [], 4/5, "system status"⟩

/-- The `save_path` parameter of the registered `take_screenshot` intent:
kind `path`, optional, default `"desktop"`, no validation pattern. -/
def save_path_param : IntentParameter :=
  ⟨"save_path", "path", false, .str "desktop", Option.none⟩

/-- The registered `take_screenshot` intent (its handler performs OS
screenshots and plays no part in parameter extraction, so it is left
unbound here). -/
def take_screenshot_intent : Intent :=
  ⟨"take_screenshot", [("save_path", save_path_param)], Option.none⟩

/-- The `re.search` outcome of the first `take_screenshot` pattern
`take\s+(?:a\s+)?screenshot(?:\s+(?:and\s+)?save\s+(?:it\s+)?(?:to\s+)?(?P<save_path>\S+))?`
on the input `"take a screenshot"`: the whole text matches, and the named
group `save_path` exists in `groupdict()` but captured nothing (the optional
tail did not participate). -/
def take_screenshot_match : RegexMatch :=
  ⟨[("save_path", Option.none)], "take a screenshot", "take a screenshot"⟩

/-- The required `coordinates` parameter of the registered
`click_coordinates` intent. -/
def coordinates_param : IntentParameter :=
  ⟨"coordinates", "coordinates", true, PyValue.none, Option.none⟩

/-- The registered `click_coordinates` intent with a trivially succeeding
handler bound. -/
def click_intent : Intent :=
  ⟨"click_coordinates", [("coordinates", coordinates_param)],
    some (fun _ _ => .ok ⟨true, Option.none⟩)⟩

/-- A parsed `click_coordinates` whose extraction produced no parameters at
all, so the required `coordinates` is missing. -/
def click_parsed_missing : ParsedIntent := ⟨click_intent, [], 7/10, "click"⟩

/-- A handler that raises (`Except.error` models the raised exception). -/
def failing_handler : HandlerFn := fun _ _ => .error "boom"

/-- An intent with no parameters whose bound handler always raises. -/
def boom_intent : Intent := ⟨"boom", [], some failing_handler⟩

/-- A parsed instance of `boom_intent`. -/
def boom_parsed : ParsedIntent := ⟨boom_intent, [], 7/10, "go boom"⟩

/-- A namespace value that is a plain JSON-serializable user value. -/
def objW : PyObj := ⟨false, false, true, "5"⟩

/-- An `execute_code` outcome that failed (e.g. a `NameError` inside the
user code). -/
def failing_exec : String → List (String × StoredValue) → ExecCodeResult :=
  fun _ _ => ⟨false, some "NameError", []⟩

/-- An `execute_code` outcome that succeeded and extracted one variable. -/
def succeeding_exec : String → List (String × StoredValue) → ExecCodeResult :=
  fun _ _ => ⟨true, Option.none, [("y", .strOf "84")]⟩

/-- A persistent-session variable map with one entry. -/
def sessionW : List (String × StoredValue) := [("x", .strOf "42")]

/-! ## Helper lemmas -/

/-- `pyMin` agrees with Mathlib's `min` on `ℚ`. -/
theorem pyMin_eq_min (a b : ℚ) : pyMin a b = min a b :=
  (min_def a b).symm

/-- On a regex capture (a string or `None`), `_convert_parameter_type` never
raises: the only raising branch is `bool` applied to a non-string. -/
theorem convert_capture_isOk (c : Option String) (t : String) :
    (convert_parameter_type (ofCapture c) t).isOk = true := by
  cases hres : convert_parameter_type (ofCapture c) t with
  | ok w => rfl
  | error e =>
    exfalso
    cases c with
    | none => simp [ofCapture, convert_parameter_type] at hres
    | some s =>
      have hof : ofCapture (some s) = PyValue.str s := rfl
      rw [hof] at hres
      unfold convert_parameter_type at hres
      split_ifs at hres <;>
        first
          | (simp at hres; done)
          | (split at hres <;> (try split at hres) <;> simp at hres)

/-! ## C1 — sandbox validation of `import os` -/

/-- **C1, counterexample.** On the module consisting of the single
statement `import os` — with `RestrictedPython` unavailable, a fallback
configuration the source itself anticipates — `_validate_code` answers `{"valid": True}`
with no error, even though the `CodeValidator` walk has recorded the
violation `Prohibited import: os`: the collected violation list is never
consulted, so validation does not fail and `execute_code` proceeds to
execution, contrary to the claim. -/
theorem validate_code_import_os_counterexample :
    validate_code [PyNodeKind.imp ["os"]] Option.none =
        ValidationResult.mk true Option.none ∧
      violations [PyNodeKind.imp ["os"]] = ["Prohibited import: os"] := by
  constructor
  · rfl
  · decide

/-- **C1, amended.** For every parsed module containing an `import`
statement that names `os`, the `CodeValidator` walk records the violation
`Prohibited import: os`, but `_validate_code` never consults the collected
violations: whenever `RestrictedPython` is unavailable (`errs = none`) or
reports no compilation errors (`errs = some []`, its behaviour on plain
module imports), validation answers `{"valid": True}` and execution
proceeds. -/
theorem validate_code_ignores_violations (ast : List PyNodeKind)
    (names : List String) (errs : Option (List String))
    (h1 : PyNodeKind.imp names ∈ ast) (h2 : "os" ∈ names)
    (h3 : errs = Option.none ∨ errs = some []) :
    "Prohibited import: os" ∈ violations ast ∧
      validate_code ast errs = ValidationResult.mk true Option.none := by
  constructor
  · unfold violations
    rw [List.mem_flatten]
    refine ⟨nodeViolations (PyNodeKind.imp names), List.mem_map_of_mem _ h1, ?_⟩
    unfold nodeViolations
    rw [List.mem_filterMap]
    exact ⟨"os", h2, by decide⟩
  · rcases h3 with h | h <;> subst h <;> rfl

/-- Witness for the amended C1 theorem at the module `import os` with
`RestrictedPython` unavailable. -/
theorem validate_code_ignores_violations_witness :
    "Prohibited import: os" ∈ violations [PyNodeKind.imp ["os"]] ∧
      validate_code [PyNodeKind.imp ["os"]] Option.none =
        ValidationResult.mk true Option.none :=
  validate_code_ignores_violations [PyNodeKind.imp ["os"]] ["os"] Option.none
    (by decide) (by decide) (Or.inl rfl)

/-! ## C2 — the confidence formula -/

/-- Closed form of `_calculate_confidence` (shared helper; the C2 claim
theorem below restates it). -/
theorem confidence_closed_form (intent : Intent) (m : RegexMatch)
    (extracted_params : List (String × PyValue)) :
    calculate_confidence intent m extracted_params =
      confidence_spec
        (((intent.parameters.map Prod.snd).filter (fun p => p.required)).length)
        ((((intent.parameters.map Prod.snd).filter (fun p => p.required)).filter
            (fun p => hasNonNull extracted_params p.name)).length)
        (pyLower (pyStrip m.group0) = pyLower (pyStrip m.string)) := by
  unfold calculate_confidence confidence_spec
  rw [pyMin_eq_min]
  by_cases hN :
      ((intent.parameters.map Prod.snd).filter (fun p => p.required)).length = 0
  · by_cases hx : pyLower (pyStrip m.group0) = pyLower (pyStrip m.string) <;>
      simp [hN, hx, min_comm]
  · by_cases hx : pyLower (pyStrip m.group0) = pyLower (pyStrip m.string) <;>
      · simp [hN, hx]
        rw [min_comm]
        ring_nf

/-- **C2.** For every template, match and extracted-parameter map, the
confidence computed by `_calculate_confidence` equals
`min(1.00, 0.70 + 0.30×(K/N) + E)`, where `N` is the number of required
parameters (the term contributing 0 when `N = 0`), `K` the number of
required parameters whose extracted value is non-null, and `E = 0.10`
exactly when the matched substring, trimmed and lowercased, equals the
entire subject text (`match.string`) trimmed and lowercased. -/
theorem calculate_confidence_eq_spec (intent : Intent) (m : RegexMatch)
    (extracted_params : List (String × PyValue)) :
    calculate_confidence intent m extracted_params =
      confidence_spec
        (((intent.parameters.map Prod.snd).filter (fun p => p.required)).length)
        ((((intent.parameters.map Prod.snd).filter (fun p => p.required)).filter
            (fun p => hasNonNull extracted_params p.name)).length)
        (pyLower (pyStrip m.group0) = pyLower (pyStrip m.string)) :=
  confidence_closed_form intent m extracted_params

/-! ## C3 — the scan of `parse_intent` -/

/-- The inner pattern loop is the candidate scan over the matches that
succeeded. -/
theorem foldl_scanStep_eq (text : String) (intent : Intent)
    (ms : List (Option RegexMatch)) (st : Option ParsedIntent × ℚ) :
    ms.foldl (scanStep text intent) st =
      (ms.filterMap (fun om => om.map (mkCandidate text intent))).foldl bestStep st := by
  induction ms generalizing st with
  | nil => rfl
  | cons om rest ih =>
    cases om with
    | none => simpa [scanStep] using ih st
    | some m => simpa [scanStep] using ih (bestStep st (mkCandidate text intent m))

/-- The nested template/pattern loops are the candidate scan over the flat
candidate list. -/
theorem foldl_catalogue_eq (text : String)
    (catalogue : List (Intent × List (Option RegexMatch)))
    (st : Option ParsedIntent × ℚ) :
    catalogue.foldl (fun best im => im.2.foldl (scanStep text im.1) best) st =
      (candidates text catalogue).foldl bestStep st := by
  induction catalogue generalizing st with
  | nil => rfl
  | cons im rest ih =>
    simp only [List.foldl_cons, candidates, List.map_cons, List.flatten_cons,
      List.foldl_append]
    rw [foldl_scanStep_eq]
    exact ih _

/-- The first component of the strict-`>` running-best scan is `selBest`,
falling back to the initial best when nothing beats the threshold. -/
theorem foldl_bestStep_fst (l : List ParsedIntent) (b : Option ParsedIntent)
    (v : ℚ) :
    (l.foldl bestStep (b, v)).1 =
      match selBest v l with
      | some r => some r
      | Option.none => b := by
  induction l generalizing b v with
  | nil => rfl
  | cons c cs ih =>
    by_cases h : c.confidence > v
    · simp only [List.foldl_cons, bestStep, if_pos h]
      rw [ih]
      cases hs : selBest c.confidence cs <;> simp [selBest, h, hs]
    · simp only [List.foldl_cons, bestStep, if_neg h]
      rw [ih]
      simp [selBest, h]

/-- `parse_intent` is the first strict maximum of the candidate list. -/
theorem parse_intent_eq_selBest (text : String)
    (catalogue : List (Intent × List (Option RegexMatch))) :
    parse_intent text catalogue = selBest 0 (candidates text catalogue) := by
  unfold parse_intent
  rw [foldl_catalogue_eq, foldl_bestStep_fst]
  cases selBest (0 : ℚ) (candidates text catalogue) <;> rfl

/-- When the scan returns nothing, every candidate was at or below the
threshold. -/
theorem selBest_none_le (l : List ParsedIntent) (v : ℚ)
    (h : selBest v l = Option.none) : ∀ c ∈ l, c.confidence ≤ v := by
  induction l generalizing v with
  | nil => simp
  | cons c cs ih =>
    unfold selBest at h
    by_cases hc : c.confidence > v
    · rw [if_pos hc] at h
      cases hs : selBest c.confidence cs <;> rw [hs] at h <;> simp at h
    · rw [if_neg hc] at h
      intro d hd
      rcases List.mem_cons.mp hd with rfl | hd'
      · exact le_of_not_lt hc
      · exact ih v h d hd'

/-- The scan result is the earliest candidate of maximal confidence: strictly
above the threshold, strictly above everything before it, and at least
everything after it. -/
theorem selBest_some_spec (l : List ParsedIntent) (v : ℚ) (r : ParsedIntent)
    (h : selBest v l = some r) :
    v < r.confidence ∧ ∃ l₁ l₂, l = l₁ ++ r :: l₂ ∧
      (∀ c ∈ l₁, c.confidence < r.confidence) ∧
      (∀ c ∈ l₂, c.confidence ≤ r.confidence) := by
  induction l generalizing v with
  | nil => simp [selBest] at h
  | cons c cs ih =>
    unfold selBest at h
    by_cases hc : c.confidence > v
    · rw [if_pos hc] at h
      cases hs : selBest c.confidence cs with
      | none =>
        rw [hs] at h
        injection h with h'
        subst h'
        exact ⟨hc, [], cs, rfl, by simp, selBest_none_le cs c.confidence hs⟩
      | some r' =>
        rw [hs] at h
        injection h with h'
        subst h'
        obtain ⟨hv, l₁, l₂, rfl, h₁, h₂⟩ := ih c.confidence hs
        refine ⟨lt_trans hc hv, c :: l₁, l₂, rfl, ?_, h₂⟩
        intro d hd
        rcases List.mem_cons.mp hd with rfl | hd'
        · exact hv
        · exact h₁ d hd'
    · rw [if_neg hc] at h
      obtain ⟨hv, l₁, l₂, rfl, h₁, h₂⟩ := ih v h
      refine ⟨hv, c :: l₁, l₂, rfl, ?_, h₂⟩
      intro d hd
      rcases List.mem_cons.mp hd with rfl | hd'
      · exact lt_of_le_of_lt (le_of_not_lt hc) hv
      · exact h₁ d hd'

/-- The specification formula always lands in `[0.70, 1.00]`. -/
theorem confidence_spec_range (N K : ℕ) (exact : Prop) [Decidable exact] :
    (7 : ℚ)/10 ≤ confidence_spec N K exact ∧ confidence_spec N K exact ≤ 1 := by
  unfold confidence_spec
  constructor
  · refine le_min (by norm_num) ?_
    have hdiv : (0 : ℚ) ≤ (3/10 : ℚ) * ((K : ℚ) / (N : ℚ)) := by positivity
    split_ifs <;> linarith
  · exact min_le_left _ _

/-- Every candidate the scan meets has confidence in `[0.70, 1.00]`. -/
theorem mem_candidates_confidence (text : String)
    (catalogue : List (Intent × List (Option RegexMatch))) (c : ParsedIntent)
    (h : c ∈ candidates text catalogue) :
    (7 : ℚ)/10 ≤ c.confidence ∧ c.confidence ≤ 1 := by
  unfold candidates at h
  rw [List.mem_flatten] at h
  obtain ⟨l, hl, hc⟩ := h
  rw [List.mem_map] at hl
  obtain ⟨im, him, rfl⟩ := hl
  rw [List.mem_filterMap] at hc
  obtain ⟨om, hom, hsome⟩ := hc
  cases om with
  | none => simp at hsome
  | some m =>
    have hcm : mkCandidate text im.1 m = c := by simpa using hsome
    subst hcm
    show (7 : ℚ)/10 ≤ calculate_confidence im.1 m (extract_parameters im.1 m) ∧
      calculate_confidence im.1 m (extract_parameters im.1 m) ≤ 1
    rw [confidence_closed_form]
    exact confidence_spec_range _ _ _

/-- **C3.** `parse_intent` returns `none` exactly when no supplied pattern of
any registered template matched the text; otherwise it returns the
candidate met during the scan with the strictly highest confidence — a later
candidate of equal confidence never replaces the running best, so the
earliest maximal candidate wins — and that confidence lies in
`[0.70, 1.00]`. -/
theorem parse_intent_best (text : String)
    (catalogue : List (Intent × List (Option RegexMatch))) :
    (parse_intent text catalogue = Option.none ↔
        ∀ im ∈ catalogue, ∀ om ∈ im.2, om = Option.none)
      ∧ ∀ r, parse_intent text catalogue = some r →
          ((7 : ℚ)/10 ≤ r.confidence ∧ r.confidence ≤ 1 ∧
            ∃ l₁ l₂, candidates text catalogue = l₁ ++ r :: l₂
              ∧ (∀ c ∈ l₁, c.confidence < r.confidence)
              ∧ (∀ c ∈ l₂, c.confidence ≤ r.confidence)) := by
  have hps := parse_intent_eq_selBest text catalogue
  constructor
  · constructor
    · intro h
      rw [hps] at h
      have hempty : candidates text catalogue = [] := by
        by_contra hne
        obtain ⟨c, hc⟩ := List.exists_mem_of_ne_nil _ hne
        have h1 := selBest_none_le _ _ h c hc
        have h2 := (mem_candidates_confidence text catalogue c hc).1
        linarith
      intro im him om hom
      cases om with
      | none => rfl
      | some m =>
        exfalso
        have hmem : mkCandidate text im.1 m ∈ candidates text catalogue := by
          unfold candidates
          rw [List.mem_flatten]
          refine ⟨_, List.mem_map_of_mem _ him, ?_⟩
          rw [List.mem_filterMap]
          exact ⟨some m, hom, rfl⟩
        rw [hempty] at hmem
        simp at hmem
    · intro h
      have hempty : candidates text catalogue = [] := by
        unfold candidates
        rw [List.flatten_eq_nil_iff]
        intro l hl
        rw [List.mem_map] at hl
        obtain ⟨im, him, rfl⟩ := hl
        rw [List.filterMap_eq_nil_iff]
        intro om hom
        rw [h im him om hom]
        rfl
      rw [hps, hempty]
      rfl
  · intro r hr
    rw [hps] at hr
    obtain ⟨_, l₁, l₂, heq, h₁, h₂⟩ := selBest_some_spec _ _ _ hr
    have hmem : r ∈ candidates text catalogue := by
      rw [heq]
      exact List.mem_append_right _ (List.mem_cons_self _ _)
    obtain ⟨hge, hle⟩ := mem_candidates_confidence _ _ _ hmem
    exact ⟨hge, hle, l₁, l₂, heq, h₁, h₂⟩

unseal Rat.add Rat.mul Rat.inv Rat.sub in
/-- Witness for C3 on the one-intent fixture catalogue: the scan on
`"system status"` returns the parameterless exact-match candidate with
confidence `0.8`, and the claim theorem instantiates to its bounds and its
position in the candidate list. -/
theorem parse_intent_best_witness :
    (7 : ℚ)/10 ≤ status_parsed.confidence ∧ status_parsed.confidence ≤ 1 ∧
      ∃ l₁ l₂, candidates "system status" status_catalogue =
          l₁ ++ status_parsed :: l₂
        ∧ (∀ c ∈ l₁, c.confidence < status_parsed.confidence)
        ∧ (∀ c ∈ l₂, c.confidence ≤ status_parsed.confidence) :=
  (parse_intent_best "system status" status_catalogue).2 status_parsed (by rfl)

/-! ## C4 — defaults for non-capturing groups -/

/-- **C4 (code bug).** On the input `"take a screenshot"`, the first
`take_screenshot` pattern matches with its `save_path` group present in
`groupdict()` but capturing nothing.  Because `_extract_parameters` tests
only membership in `groupdict()` — not whether the group captured — it
stores the converted `None` capture, so `extracted_params["save_path"]` is
`None` and the declared default `"desktop"` is never applied (which also
leaves the handler's `save_path == "desktop"` branch unreachable).  The
claim's scenario `save_path = "desktop"` therefore fails on the code. -/
theorem extract_parameters_screenshot_null :
    extract_parameters take_screenshot_intent take_screenshot_match =
        [("save_path", PyValue.none)] ∧
      save_path_param.default = PyValue.str "desktop" := by
  constructor <;> rfl

/-! ## C5 — idempotence of parameter conversion -/

/-- Python `int()` is idempotent on conversion results. -/
theorem pyIntCast_idem (v : PyValue) : pyIntCast (pyIntCast v) = pyIntCast v := by
  cases v with
  | str s =>
    cases h : pyIntOfString s with
    | none => simp [pyIntCast, h]
    | some n => simp [pyIntCast, h]
  | bool b => cases b <;> rfl
  | _ => rfl

/-- Python `float()` is idempotent on conversion results. -/
theorem pyFloatCast_idem (v : PyValue) :
    pyFloatCast (pyFloatCast v) = pyFloatCast v := by
  cases v with
  | str s =>
    cases h : pyFloatOfString s with
    | none => simp [pyFloatCast, h]
    | some q => simp [pyFloatCast, h]
  | bool b => cases b <;> rfl
  | _ => rfl

/-- **C5, counterexample.** Converting the string `"yes"` under kind `bool`
yields `True`; converting that result again under the same kind calls
`True.lower()`, which raises an uncaught `AttributeError` — so conversion is
not idempotent for kind `bool`, and converting an already-typed bool is not
a no-op but a crash. -/
theorem convert_bool_not_idempotent :
    convert_parameter_type (.str "yes") "bool" = .ok (.bool true) ∧
      convert_parameter_type (.bool true) "bool" =
        .error ("AttributeError: " ++ sq ++ "bool" ++ sq ++
          " object has no attribute " ++ sq ++ "lower" ++ sq) := by
  constructor <;> rfl

/-- **C5, amended.** For every declared kind other than `bool`,
`_convert_parameter_type` is idempotent: whenever converting `v` returns
`w`, converting `w` again under the same kind returns `w` unchanged.  (For
kind `bool`, re-converting the boolean result raises `AttributeError`; see
the counterexample.) -/
theorem convert_idempotent_except_bool (v w : PyValue) (k : String)
    (hk : k ≠ "bool") (hc : convert_parameter_type v k = .ok w) :
    convert_parameter_type w k = .ok w := by
  by_cases hw : w = PyValue.none
  · subst hw
    simp [convert_parameter_type]
  · unfold convert_parameter_type at hc ⊢
    by_cases hv : v = PyValue.none
    · rw [if_pos hv] at hc
      injection hc with h'
      exact absurd h'.symm hw
    · rw [if_neg hv] at hc
      rw [if_neg hw]
      by_cases h1 : k = "int"
      · rw [if_pos h1] at hc ⊢
        injection hc with h'
        subst h'
        rw [pyIntCast_idem]
      · rw [if_neg h1] at hc ⊢
        by_cases h2 : k = "float"
        · rw [if_pos h2] at hc ⊢
          injection hc with h'
          subst h'
          rw [pyFloatCast_idem]
        · rw [if_neg h2] at hc ⊢
          rw [if_neg hk] at hc ⊢
          by_cases h4 : k = "coordinates"
          · rw [if_pos h4] at hc ⊢
            cases v with
            | str s =>
              cases hr : digitRuns s with
              | nil =>
                simp only [hr] at hc
                injection hc with h'
                exact absurd h'.symm hw
              | cons a tl =>
                cases tl with
                | nil =>
                  simp only [hr] at hc
                  injection hc with h'
                  exact absurd h'.symm hw
                | cons b tl2 =>
                  simp only [hr] at hc
                  injection hc with h'
                  subst h'
                  rfl
            | int n =>
              injection hc with h'
              subst h'
              rfl
            | float q =>
              injection hc with h'
              subst h'
              rfl
            | bool b =>
              injection hc with h'
              subst h'
              rfl
            | coords x y =>
              injection hc with h'
              subst h'
              rfl
            | path p =>
              injection hc with h'
              subst h'
              rfl
            | none => exact absurd rfl hv
          · rw [if_neg h4] at hc ⊢
            by_cases h5 : k = "path"
            · rw [if_pos h5] at hc ⊢
              cases v with
              | str s =>
                injection hc with h'
                subst h'
                rfl
              | int n =>
                injection hc with h'
                subst h'
                rfl
              | float q =>
                injection hc with h'
                subst h'
                rfl
              | bool b =>
                injection hc with h'
                subst h'
                rfl
              | coords x y =>
                injection hc with h'
                subst h'
                rfl
              | path p =>
                injection hc with h'
                subst h'
                rfl
              | none => exact absurd rfl hv
            · rw [if_neg h5] at hc ⊢

/-- Witness for the amended C5 theorem: kind `int` on `"42"` gives `42`, and
converting `42` again is a no-op. -/
theorem convert_idempotent_except_bool_witness :
    convert_parameter_type (.int 42) "int" = .ok (.int 42) :=
  convert_idempotent_except_bool (.str "42") (.int 42) "int" (by decide) (by rfl)

/-! ## C6 — conversion is total on captured strings -/

/-- **C6.** For every captured string and every declared kind,
`_convert_parameter_type` returns a value (it never raises on string
input), and when the `int` or `float` parse fails it returns the raw
captured string unchanged. -/
theorem convert_total_on_strings (s k : String) :
    (convert_parameter_type (.str s) k).isOk = true ∧
      (k = "int" → pyIntOfString s = Option.none →
        convert_parameter_type (.str s) k = .ok (.str s)) ∧
      (k = "float" → pyFloatOfString s = Option.none →
        convert_parameter_type (.str s) k = .ok (.str s)) := by
  refine ⟨convert_capture_isOk (some s) k, ?_, ?_⟩
  · intro hk hp
    subst hk
    unfold convert_parameter_type
    rw [if_neg (by simp), if_pos rfl]
    simp [pyIntCast, hp]
  · intro hk hp
    subst hk
    unfold convert_parameter_type
    rw [if_neg (by simp), if_neg (by decide), if_pos rfl]
    simp [pyFloatCast, hp]

/-- Witness for C6 at the malformed numeric capture `"12abc"` under kind
`int`: conversion succeeds and returns the raw string. -/
theorem convert_total_on_strings_witness :
    (convert_parameter_type (.str "12abc") "int").isOk = true ∧
      convert_parameter_type (.str "12abc") "int" = .ok (.str "12abc") :=
  ⟨(convert_total_on_strings "12abc" "int").1,
    (convert_total_on_strings "12abc" "int").2.1 rfl (by rfl)⟩

/-! ## C7 — missing required parameters -/

/-- String append concatenates the underlying character lists. -/
theorem string_data_append (s t : String) : (s ++ t).data = s.data ++ t.data := by
  cases s
  cases t
  rfl

/-- Every element of a joined list occurs inside the joined string. -/
theorem mem_joinSep_infix (sep : String) (l : List String) (e : String)
    (h : e ∈ l) : e.data <:+: (joinSep sep l).data := by
  induction l with
  | nil => simp at h
  | cons a rest ih =>
    cases rest with
    | nil =>
      obtain rfl : e = a := by simpa using h
      exact List.infix_refl _
    | cons b t =>
      rcases List.mem_cons.mp h with rfl | h'
      · rw [joinSep]
        exact ⟨[], (sep ++ joinSep sep (b :: t)).data,
          by simp [string_data_append]⟩
      · refine (ih h').trans ?_
        rw [joinSep]
        exact ⟨(a ++ sep).data, [], by simp [string_data_append]⟩

/-- A required parameter whose value is `None` (or absent) contributes its
`Required parameter '<name>' is missing` message to the collected errors. -/
theorem mem_validation_errors (re_match : String → String → Bool)
    (p : ParsedIntent) (key : String) (param : IntentParameter)
    (hmem : (key, param) ∈ p.intent.parameters) (hreq : param.required = true)
    (hmiss : pyGet p.extracted_params key = PyValue.none) :
    ("Required parameter " ++ sq ++ key ++ sq ++ " is missing") ∈
      validation_errors re_match p := by
  unfold validation_errors
  rw [List.mem_flatten]
  refine ⟨param_errors re_match p (key, param), List.mem_map_of_mem _ hmem, ?_⟩
  simp [param_errors, hmiss, hreq]

/-- **C7.** For every `ParsedIntent` with a bound handler in which some
required parameter is missing or `None` in `extracted_params`,
`execute_intent` returns `success=False` with an error message that joins
all collected validation errors with `"; "` and contains the missing
parameter's name. -/
theorem execute_intent_missing_required (re_match : String → String → Bool)
    (automation : WindowsAutomation) (p : ParsedIntent) (key : String)
    (param : IntentParameter) (h : HandlerFn)
    (hh : p.intent.handler = some h)
    (hmem : (key, param) ∈ p.intent.parameters)
    (hreq : param.required = true)
    (hmiss : pyGet p.extracted_params key = PyValue.none) :
    (execute_intent re_match automation p).success = false ∧
      (execute_intent re_match automation p).error =
        some ("Parameter validation failed: " ++
          joinSep "; " (validation_errors re_match p)) ∧
      key.data <:+:
        (((execute_intent re_match automation p).error).getD "").data := by
  have hmem_err := mem_validation_errors re_match p key param hmem hreq hmiss
  have hne : validation_errors re_match p ≠ [] := by
    intro h0
    rw [h0] at hmem_err
    simp at hmem_err
  have hvalid : (validate_parameters re_match p).valid = false := by
    unfold validate_parameters
    rw [decide_eq_false_iff_not]
    intro hlen
    exact hne (List.length_eq_zero.mp hlen)
  have herr : (validate_parameters re_match p).error =
      some (joinSep "; " (validation_errors re_match p)) := by
    unfold validate_parameters
    simp [hne]
  have hexec : execute_intent re_match automation p =
      ⟨false, some ("Parameter validation failed: " ++
        joinSep "; " (validation_errors re_match p))⟩ := by
    unfold execute_intent
    rw [hh]
    simp only [hvalid, herr, if_pos, Option.getD_some]
  rw [hexec]
  refine ⟨rfl, rfl, ?_⟩
  have h1 : key.data <:+:
      ("Required parameter " ++ sq ++ key ++ sq ++ " is missing").data :=
    ⟨("Required parameter " ++ sq).data, (sq ++ " is missing").data,
      by simp [string_data_append]⟩
  have h2 := mem_joinSep_infix "; " (validation_errors re_match p) _ hmem_err
  refine (h1.trans h2).trans ?_
  exact ⟨("Parameter validation failed: ").data, [], by simp [string_data_append]⟩

/-- Witness for C7: executing the fixture `click_coordinates` parse whose
required `coordinates` parameter was never extracted fails with a message
naming `coordinates`. -/
theorem execute_intent_missing_required_witness :
    (execute_intent (fun _ _ => true) ⟨⟩ click_parsed_missing).success = false ∧
      (execute_intent (fun _ _ => true) ⟨⟩ click_parsed_missing).error =
        some ("Parameter validation failed: " ++
          joinSep "; " (validation_errors (fun _ _ => true) click_parsed_missing)) ∧
      "coordinates".data <:+:
        (((execute_intent (fun _ _ => true) ⟨⟩ click_parsed_missing).error).getD
          "").data :=
  execute_intent_missing_required (fun _ _ => true) ⟨⟩ click_parsed_missing
    "coordinates" coordinates_param (fun _ _ => .ok ⟨true, Option.none⟩)
    rfl (List.mem_cons_self _ _) rfl rfl

/-! ## C8 — handler exceptions are caught -/

/-- **C8.** If the bound handler raises during `execute_intent` (validation
having passed, so the handler is actually invoked), the exception does not
propagate: the result is `success=False` with the exception's message as
the error. -/
theorem execute_intent_handler_exception (re_match : String → String → Bool)
    (automation : WindowsAutomation) (p : ParsedIntent) (h : HandlerFn)
    (msg : String)
    (hh : p.intent.handler = some h)
    (hvalid : (validate_parameters re_match p).valid = true)
    (hraise : h automation (paramsWithContext p) = .error msg) :
    execute_intent re_match automation p = ⟨false, some msg⟩ := by
  unfold execute_intent
  rw [hh]
  simp [hvalid, hraise]

/-- Witness for C8: the always-raising fixture handler yields
`success=False` with its exception message. -/
theorem execute_intent_handler_exception_witness :
    execute_intent (fun _ _ => true) ⟨⟩ boom_parsed =
      ⟨false, some "boom"⟩ :=
  execute_intent_handler_exception (fun _ _ => true) ⟨⟩ boom_parsed
    failing_handler "boom" rfl rfl rfl

/-! ## C9 — the extracted `variables` map -/

/-- **C9.** The sandbox `variables` map contains exactly the namespace
entries whose name does not start with an underscore, is not a key of the
original restricted namespace, and whose value is neither a module nor a
function — each kept as-is when JSON-serializable and otherwise replaced by
its string representation — and in particular no name colliding with the
restricted namespace's builtins ever appears. -/
theorem extract_user_variables_spec (safe_names : List String)
    (ns : List (String × PyObj)) (n : String) (w : StoredValue) :
    ((n, w) ∈ extract_user_variables safe_names ns ↔
        ∃ v : PyObj, (n, v) ∈ ns ∧ startsWithUnderscore n = false ∧
          safe_names.contains n = false ∧ v.isModule = false ∧
          v.isFunction = false ∧
          w = (if v.jsonSerializable then .asIs v else .strOf v.strRepr))
      ∧ (safe_names.contains n = true →
          (n, w) ∉ extract_user_variables safe_names ns) := by
  have hiff : (n, w) ∈ extract_user_variables safe_names ns ↔
      ∃ v : PyObj, (n, v) ∈ ns ∧ startsWithUnderscore n = false ∧
        safe_names.contains n = false ∧ v.isModule = false ∧
        v.isFunction = false ∧
        w = (if v.jsonSerializable then .asIs v else .strOf v.strRepr) := by
    unfold extract_user_variables
    rw [List.mem_filterMap]
    constructor
    · rintro ⟨⟨n', v⟩, hmem, hf⟩
      by_cases hcond : startsWithUnderscore n' = false ∧
          safe_names.contains n' = false ∧ v.isModule = false ∧
          v.isFunction = false
      · rw [if_pos hcond] at hf
        have hp : n' = n ∧
            (if v.jsonSerializable then StoredValue.asIs v
              else StoredValue.strOf v.strRepr) = w := by
          simpa [Prod.ext_iff] using hf
        obtain ⟨rfl, rfl⟩ := hp
        exact ⟨v, hmem, hcond.1, hcond.2.1, hcond.2.2.1, hcond.2.2.2, rfl⟩
      · rw [if_neg hcond] at hf
        exact absurd hf (by simp)
    · rintro ⟨v, hmem, h1, h2, h3, h4, rfl⟩
      exact ⟨(n, v), hmem, by rw [if_pos ⟨h1, h2, h3, h4⟩]⟩
  refine ⟨hiff, ?_⟩
  intro hc hmem2
  obtain ⟨v, _, _, h2, _⟩ := hiff.mp hmem2
  rw [hc] at h2
  exact Bool.noConfusion h2

/-- Witness for C9: a plain user variable is kept, and a name colliding with
the restricted namespace (here `x`) never appears. -/
theorem extract_user_variables_spec_witness :
    ("y", StoredValue.asIs objW) ∈ extract_user_variables ["x"] [("y", objW)] ∧
      ("x", StoredValue.asIs objW) ∉ extract_user_variables ["x"] [("x", objW)] :=
  ⟨(extract_user_variables_spec ["x"] [("y", objW)] "y"
        (StoredValue.asIs objW)).1.mpr
      ⟨objW, by decide, by decide, by decide, by decide, by decide, by decide⟩,
    (extract_user_variables_spec ["x"] [("x", objW)] "x"
        (StoredValue.asIs objW)).2 (by decide)⟩

/-! ## C10 — persistent-mode session atomicity -/

/-- **C10.** `_execute_persistent` is atomic with respect to the session
map: a failed execution leaves `session_variables` unchanged (and attaches
no `session_variables` key to the result); only a successful execution
merges the extracted variables back into the session. -/
theorem execute_persistent_atomic
    (exec_code : String → List (String × StoredValue) → ExecCodeResult)
    (session_variables : List (String × StoredValue)) (code : String) :
    ((exec_code code session_variables).success = false →
        (execute_persistent exec_code session_variables code).2 =
            session_variables ∧
          (execute_persistent exec_code session_variables code).1.2 =
            Option.none)
      ∧ ((exec_code code session_variables).success = true →
          (execute_persistent exec_code session_variables code).2 =
            dictUpdate session_variables
              (exec_code code session_variables).vars) := by
  constructor
  · intro h
    unfold execute_persistent
    simp [h]
  · intro h
    unfold execute_persistent
    simp [h]

/-- Witness for C10: a failing execution leaves the fixture session intact;
a succeeding one merges the extracted variable. -/
theorem execute_persistent_atomic_witness :
    (execute_persistent failing_exec sessionW "boom()").2 = sessionW ∧
      (execute_persistent succeeding_exec sessionW "y = x * 2").2 =
        dictUpdate sessionW [("y", StoredValue.strOf "84")] :=
  ⟨((execute_persistent_atomic failing_exec sessionW "boom()").1 rfl).1,
    (execute_persistent_atomic succeeding_exec sessionW "y = x * 2").2 rfl⟩

end WindowsAIAgent
